import Mathlib

/-
Verification of the statement-building, batch-execution and result-materialization
core of package gdb (file src/database/gdb/gdb_base.go) against its specification.

The Go source is shallowly embedded below.  Go maps that the code iterates
(`varToMapDeep` output, `listMap[i]`) are embedded as ordered association lists
(`Row`), matching the spec's NormalizedRow ("an ordered mapping").  The SQL driver
link is embedded as a stub exec function `Nat → Stmt → Except String Int`
(call index and statement to rows-affected or error), as §8 of the spec suggests
("verify with a stub driver returning a fixed affected-count per call"); the
statements issued through the link are collected in an explicit call trace.
Functions of this repository that gdb_base.go calls but whose bodies are outside
src/ (doQuoteWord, getInsertOperationByOption, the default batch size) are
modelled from the spec and are marked as such in their doc comments.
-/

namespace Gdb

/-- A scalar argument value bound into a statement. -/
inductive Value
  | null
  | int (n : Int)
  | str (s : String)
deriving DecidableEq, Repr

/-- Ordered column-name to value mapping: the embedding of one normalized row
(`varToMapDeep` output / one element of `listMap`). -/
abbrev Row := List (String × Value)

/-- A built parameterized statement: SQL text plus the ordered argument list,
exactly what `doExec` receives. -/
structure Stmt where
  sql : String
  args : List Value
deriving DecidableEq, Repr

/-- The embedding of `batchSqlResult`: summed rows-affected plus the last chunk's
native result (modelled by its rows-affected count). -/
inductive SqlResult
  | batch (rowsAffected : Int) (lastResult : Option Int)
deriving DecidableEq, Repr

/-- The observable outcome of `doBatchInsert`: the trace of statements issued
through the link, plus the Go pair (result, error).  A Go nil result is `none`. -/
structure BatchOut where
  calls : List Stmt
  result : Option SqlResult
  error : Option String
deriving DecidableEq, Repr

/-- Embedding of Go `strings.Join`. -/
def strJoin (sep : String) : List String → String
  | [] => ""
  | [s] => s
  | s :: r :: rest => s ++ sep ++ strJoin sep (r :: rest)

/-- Concatenation of a list of lists (kept local so the development does not
depend on the standard library's name for flatten/join). -/
def catLists : List (List α) → List α
  | [] => []
  | l :: ls => l ++ catLists ls

/-- Go map indexing `listMap[i][k]`: a missing key yields the zero value (nil),
embedded as `Value.null`. -/
def lookupVal (row : Row) (k : String) : Value :=
  match row with
  | [] => Value.null
  | (k2, v) :: rest => if k2 = k then v else lookupVal rest k

/-- The argument group one row contributes, retrieved key by key
(gdb_base.go line 502: "it should use slice+key to retrieve the value"). -/
def rowParams (keys : List String) (row : Row) : List Value :=
  keys.map (fun k => lookupVal row k)

/-- The insert write-modes, gdb_base.go lines 342-346:
0 insert, 1 replace, 2 save, 3 ignore. -/
inductive InsertOption
  | dflt
  | replace
  | save
  | ignore
deriving DecidableEq, Repr

/-- Modelled from the spec: `getInsertOperationByOption` lives outside src/.
Its value is fixed by the doInsert comment (lines 342-346), by §4.2 of the spec
(write-mode enum DEFAULT, IGNORE, REPLACE, ON_DUPLICATE_UPDATE) and by the §8
example showing write-mode SAVE emitting the INSERT verb. -/
def getInsertOperation : InsertOption → String
  | InsertOption.dflt => "INSERT"
  | InsertOption.replace => "REPLACE"
  | InsertOption.save => "INSERT"
  | InsertOption.ignore => "INSERT IGNORE"

/-- Modelled from the spec: `gDEFAULT_BATCH_NUM` is declared outside src/; §4.3
only requires some default constant, whose exact value no claim depends on. -/
def gDEFAULT_BATCH_NUM : Nat := 10

/-- gdb_base.go lines 494-497: the chunk size is the caller's batch argument when
positive, else the default. -/
def batchNumOf : Option Nat → Nat
  | some b => if 0 < b then b else gDEFAULT_BATCH_NUM
  | none => gDEFAULT_BATCH_NUM

/-- gdb_base.go line 477: `keysStr := charL + strings.Join(keys, charR+","+charL) + charR`. -/
def batchKeysStr (charL charR : String) (keys : List String) : String :=
  charL ++ strJoin (charR ++ "," ++ charL) keys ++ charR

/-- gdb_base.go line 478: one `(?,...,?)` value-holder group. -/
def holderOf (keys : List String) : String :=
  "(" ++ strJoin "," (keys.map (fun _ => "?")) ++ ")"

/-- gdb_base.go lines 379-388 and 483-492: the `col=VALUES(col),...` tail of the
ON DUPLICATE KEY UPDATE clause, built over the keys in order. -/
def dupUpdateClause (charL charR : String) (keys : List String) : String :=
  "ON DUPLICATE KEY UPDATE " ++
    strJoin "," (keys.map (fun k =>
      charL ++ k ++ charR ++ "=VALUES(" ++ charL ++ k ++ charR ++ ")"))

/-- The `updateStr` of doInsert/doBatchInsert: the duplicate-key clause in SAVE
mode, the empty string otherwise. -/
def insertUpdateStr (charL charR : String) (opt : InsertOption) (keys : List String) : String :=
  if opt = InsertOption.save then dupUpdateClause charL charR keys else ""

/-- gdb_base.go lines 509-516: the chunk statement text
`fmt.Sprintf("%s INTO %s(%s) VALUES%s %s", operation, table, keysStr, strings.Join(values, ","), updateStr)`. -/
def chunkSql (operation table keysStr updateStr : String) (values : List String) : String :=
  operation ++ " INTO " ++ table ++ "(" ++ keysStr ++ ") VALUES" ++
    strJoin "," values ++ " " ++ updateStr

/-- The loop-invariant data of `doBatchInsert`: the stub link, the statement
builder for a value-group list, the first-row key list, the holder group and the
chunk size. -/
structure BatchCfg where
  exec : Nat → Stmt → Except String Int
  mkSql : List String → String
  keys : List String
  holder : String
  batchNum : Nat

/-- The `for i := 0; i < listMapLen; i++` loop of doBatchInsert (lines 499-531):
append the row's params and one holder group; flush as one exec when the pending
group count reaches the chunk size or the row is the last; on exec error return
the failing call's (nil) result together with the error; otherwise accrue
rows-affected, retain the last native result, clear the buffers and continue. -/
def batchLoop (cfg : BatchCfg) :
    List Row → Nat → List Value → List String → Int → Option Int → List Stmt → BatchOut
  | [], _, _, _, acc, last, calls => ⟨calls, some (SqlResult.batch acc last), none⟩
  | row :: rest, callIdx, params0, values0, acc, last, calls =>
    if (values0 ++ [cfg.holder]).length = cfg.batchNum ∨
        (rest = [] ∧ 0 < (values0 ++ [cfg.holder]).length) then
      match cfg.exec callIdx
          ⟨cfg.mkSql (values0 ++ [cfg.holder]), params0 ++ rowParams cfg.keys row⟩ with
      | Except.error e =>
          ⟨calls ++ [⟨cfg.mkSql (values0 ++ [cfg.holder]), params0 ++ rowParams cfg.keys row⟩],
           none, some e⟩
      | Except.ok n =>
          batchLoop cfg rest (callIdx + 1) [] [] (acc + n) (some n)
            (calls ++ [⟨cfg.mkSql (values0 ++ [cfg.holder]), params0 ++ rowParams cfg.keys row⟩])
    else
      batchLoop cfg rest callIdx (params0 ++ rowParams cfg.keys row)
        (values0 ++ [cfg.holder]) acc last calls

/-- The key list is taken from the first row only (lines 470-473). -/
def firstKeys (rows : List Row) : List String :=
  (rows.headD []).map Prod.fst

/-- Embedding of `doBatchInsert` (lines 426-533), after the input has been
normalized to a list of rows.  The table name arrives already resolved
(`handleTableName` lives outside src/; §4.2: builders accept an already-resolved
table name).  An empty list is rejected before any link use (line 460). -/
def doBatchInsert (exec : Nat → Stmt → Except String Int) (charL charR table : String)
    (listMap : List Row) (opt : InsertOption) (batch : Option Nat) : BatchOut :=
  match listMap with
  | [] => ⟨[], none, some "data list cannot be empty"⟩
  | first :: rest =>
      batchLoop
        ⟨exec,
         chunkSql (getInsertOperation opt) table
           (batchKeysStr charL charR (first.map Prod.fst))
           (insertUpdateStr charL charR opt (first.map Prod.fst)),
         first.map Prod.fst,
         holderOf (first.map Prod.fst),
         batchNumOf batch⟩
        (first :: rest) 0 [] [] 0 none []

/-- Embedding of the single-row path of `doInsert` (lines 347-399), returning the
statement handed to doExec: empty data is rejected (line 367), fields, holders and
params are taken from the row in order (lines 371-375), and the statement text is
`fmt.Sprintf("%s INTO %s(%s) VALUES(%s) %s", ...)` (lines 395-398). -/
def doInsert (charL charR table : String) (dataMap : Row) (opt : InsertOption) :
    Except String Stmt :=
  if dataMap.length = 0 then Except.error "data cannot be empty"
  else
    Except.ok
      ⟨getInsertOperation opt ++ " INTO " ++ table ++ "(" ++
        strJoin "," (dataMap.map (fun kv => charL ++ kv.1 ++ charR)) ++ ") VALUES(" ++
        strJoin "," (dataMap.map (fun _ => "?")) ++ ") " ++
        insertUpdateStr charL charR opt (dataMap.map Prod.fst),
       dataMap.map Prod.snd⟩

/-- Modelled from the spec: `doQuoteWord` lives outside src/.  §4.1: a bare
identifier of letters, digits or underscore is wrapped with the quote chars;
anything else is returned unchanged. -/
def doQuoteWord (s charL charR : String) : String :=
  if s ≠ "" ∧ s.toList.all (fun c => c.isAlphanum || c == '_') then
    charL ++ s ++ charR
  else s

/-- The data argument of Update: record-like (map or struct, already normalized
to an ordered row) or a raw update-expression string. -/
inductive UpdateData
  | record (fields : Row)
  | expr (s : String)
deriving DecidableEq

/-- Embedding of `doUpdate` (lines 559-593), returning the statement handed to
doExec: record-like data becomes quoted-column `=?` assignment pairs with the
values as params (lines 570-576), empty assignments are rejected (line 580), the
data params are placed before the condition's own args (lines 583-585), and the
text is `fmt.Sprintf("UPDATE %s SET %s%s", table, updates, condition)` (line 592). -/
def doUpdate (charL charR table : String) (data : UpdateData) (condition : String)
    (args : List Value) : Except String Stmt :=
  let pair : String × List Value :=
    match data with
    | UpdateData.record fields =>
        (strJoin "," (fields.map (fun kv => doQuoteWord kv.1 charL charR ++ "=?")),
         fields.map Prod.snd)
    | UpdateData.expr s => (s, [])
  if pair.1.length = 0 then Except.error "data cannot be empty"
  else
    Except.ok
      ⟨"UPDATE " ++ table ++ " SET " ++ pair.1 ++ condition,
       if 0 < pair.2.length then pair.2 ++ args else args⟩

/-- Embedding of `Update` (lines 549-555) after the external condition formatter:
a nonempty formatted where-clause is prefixed with " WHERE ". -/
def updateStmt (charL charR table : String) (data : UpdateData) (formattedWhere : String)
    (whereArgs : List Value) : Except String Stmt :=
  doUpdate charL charR table data
    (if formattedWhere = "" then "" else " WHERE " ++ formattedWhere) whereArgs

/-
Embedding of the two Go regular expressions used by GetCount (lines 235-236):
a small backtracking matcher over exactly the constructs those patterns use
(case-insensitive literal, greedy one-or-more whitespace, greedy one-or-more dot),
with Go regexp's leftmost, preference-greedy semantics and Go's character classes
(dot is any char but newline; whitespace is tab, newline, form feed, carriage
return, space).
-/

/-- Go regexp whitespace class: [tab newline formfeed carriagereturn space]. -/
def isWsChar (c : Char) : Bool :=
  c == ' ' || c == Char.ofNat 9 || c == Char.ofNat 10 ||
    c == Char.ofNat 12 || c == Char.ofNat 13

/-- Go regexp dot: any character but newline. -/
def isDotChar (c : Char) : Bool :=
  !(c == Char.ofNat 10)

/-- Case-insensitive character-list comparison, the effect of the (?i) flag. -/
def lowerEq (a b : List Char) : Bool :=
  a.map Char.toLower == b.map Char.toLower

/-- Length of the longest prefix of characters satisfying p. -/
def runLen (p : Char → Bool) : List Char → Nat
  | [] => 0
  | c :: cs => if p c then runLen p cs + 1 else 0

/-- One element of the two GetCount patterns: a (?i) literal, one-or-more
whitespace, or one-or-more dot; `cap` marks a capturing group. -/
inductive RElem
  | lit (cap : Bool) (s : List Char)
  | wsPlus
  | dotPlus (cap : Bool)

/-- Greedy backtracking loop of a one-or-more element: try consuming k chars,
longest first, handing the remainder to the continuation for the rest of the
pattern. -/
def tryPlus (next : List Char → Option (List Char × List (List Char))) (cap : Bool)
    (s : List Char) : Nat → Option (List Char × List (List Char))
  | 0 => none
  | k + 1 =>
      match next (s.drop (k + 1)) with
      | some (rest, caps) =>
          some (rest, if cap then s.take (k + 1) :: caps else caps)
      | none => tryPlus next cap s k

/-- Match the pattern elements at the head of the input; on success return the
remaining input and the captured groups in order. -/
def reMatch : List RElem → List Char → Option (List Char × List (List Char))
  | [], s => some (s, [])
  | RElem.lit cap l :: es, s =>
      if lowerEq (s.take l.length) l then
        match reMatch es (s.drop l.length) with
        | some (rest, caps) =>
            some (rest, if cap then s.take l.length :: caps else caps)
        | none => none
      else none
  | RElem.wsPlus :: es, s => tryPlus (fun t => reMatch es t) false s (runLen isWsChar s)
  | RElem.dotPlus cap :: es, s => tryPlus (fun t => reMatch es t) cap s (runLen isDotChar s)

/-- Leftmost match: the unanchored search of Go regexp, trying each start
position left to right; on success return (prefix before the match, remainder
after the match, captures). -/
def reFindAux (es : List RElem) : List Char → Option (List Char × List Char × List (List Char))
  | [] =>
      match reMatch es [] with
      | some (rest, caps) => some ([], rest, caps)
      | none => none
  | c :: cs =>
      match reMatch es (c :: cs) with
      | some (rest, caps) => some ([], rest, caps)
      | none =>
          match reFindAux es cs with
          | some (pre, rest, caps) => some (c :: pre, rest, caps)
          | none => none

/-- Go `ReplaceAllString`: rewrite every non-overlapping leftmost match, scanning
left to right.  All pattern elements consume at least one character, so every
match is nonempty and the fuel `s.length + 1` suffices. -/
def replaceAllF (expand : List (List Char) → List Char) (es : List RElem) :
    Nat → List Char → List Char
  | 0, s => s
  | fuel + 1, s =>
      match reFindAux es s with
      | none => s
      | some (pre, rest, caps) => pre ++ expand caps ++ replaceAllF expand es fuel rest

/-- The detection pattern of line 235: `(?i)SELECT\s+COUNT\(.+\)\s+FROM`. -/
def countDetect : List RElem :=
  [RElem.lit false "SELECT".toList, RElem.wsPlus, RElem.lit false "COUNT(".toList,
   RElem.dotPlus false, RElem.lit false ")".toList, RElem.wsPlus,
   RElem.lit false "FROM".toList]

/-- The rewrite pattern of line 236: `(?i)(SELECT)\s+(.+)\s+(FROM)`. -/
def selectFields : List RElem :=
  [RElem.lit true "SELECT".toList, RElem.wsPlus, RElem.dotPlus true, RElem.wsPlus,
   RElem.lit true "FROM".toList]

/-- The replacement template of line 236 applied to the captures:
`$1 COUNT($2) $3`. -/
def countTemplate (caps : List (List Char)) : List Char :=
  match caps with
  | g1 :: g2 :: g3 :: _ => g1 ++ " COUNT(".toList ++ g2 ++ ") ".toList ++ g3
  | _ => []

/-- The query rewrite of GetCount (lines 233-237): if the query does not already
contain a COUNT aggregate between SELECT and FROM, replace the field list with
`COUNT(field_list)`; otherwise leave the query unchanged. -/
def getCountQuery (query : String) : String :=
  if (reFindAux countDetect query.toList).isSome then query
  else
    String.mk (replaceAllF countTemplate selectFields (query.toList.length + 1) query.toList)

/-
Embedding of the query side: rowsToResult, doGetAll, GetOne, GetStruct, GetValue,
GetCount.  A cursor is its column metadata plus the raw rows the driver will
yield, each cell either NULL or a byte string.  The external `convertValue`
(outside src/) is a parameter.
-/

/-- One raw driver row: per column either NULL or the scanned bytes. -/
abbrev RawRow := List (Option (List Char))

/-- A driver cursor: column names, driver type names, and the raw rows. -/
structure Cursor where
  colNames : List String
  colTypes : List String
  rows : List RawRow
deriving DecidableEq

/-- The stored cell value: `gvar.New(nil)` for NULL, or a wrapped converted
value. -/
inductive GVar
  | nil
  | val (v : Value)
deriving DecidableEq, Repr

/-- One materialized record: ordered column-name to stored-value pairs. -/
abbrev Record := List (String × GVar)

/-- The sentinel-aware error shape of the query side: `sql.ErrNoRows` versus any
other error. -/
inductive DbErr
  | noRows
  | other (msg : String)
deriving DecidableEq, Repr

/-- The byte-for-byte copy of a scanned value (lines 672-673:
`v := make([]byte, len(value)); copy(v, value)`). -/
def copyBytes : List Char → List Char
  | [] => []
  | c :: cs => c :: copyBytes cs

/-- Building one Record from the scan buffer (lines 663-676): a NULL cell is
stored as an explicit null-typed value; a non-null cell is copied and converted
with its column's driver type name. -/
def buildRecord (convert : List Char → String → Value) :
    List String → List String → RawRow → Record
  | n :: ns, t :: ts, cell :: cs =>
      (match cell with
       | none => (n, GVar.nil)
       | some b => (n, GVar.val (convert (copyBytes b) t))) ::
        buildRecord convert ns ts cs
  | _, _, _ => []

/-- The scan loop of rowsToResult (lines 658-681): each iteration overwrites the
shared scan buffer with the next row's cells and builds the record from the
buffer contents of that iteration (the copy in buildRecord is what entitles the
record to the snapshot). -/
def scanLoop (convert : List Char → String → Value) (names types : List String) :
    List RawRow → List (Option (List Char)) → List Record
  | [], _ => []
  | r :: rest, _buf => buildRecord convert names types r :: scanLoop convert names types rest r

/-- Embedding of `rowsToResult` (lines 637-683): no first row yields nil (not an
error); otherwise the rows are scanned into the shared buffer
(initially all-nil, line 652) and materialized in order. -/
def rowsToResult (convert : List Char → String → Value) (cur : Cursor) : List Record :=
  match cur.rows with
  | [] => []
  | r :: rest =>
      scanLoop convert cur.colNames cur.colTypes (r :: rest)
        (List.replicate cur.colNames.length none)

/-- Embedding of `doGetAll` (lines 142-155) over the driver's response to the
query: a query error propagates with a nil result; otherwise the cursor is
materialized with no error. -/
def doGetAll (convert : List Char → String → Value) (queryOutcome : Except String Cursor) :
    List Record × Option DbErr :=
  match queryOutcome with
  | Except.error m => ([], some (DbErr.other m))
  | Except.ok cur => (rowsToResult convert cur, none)

/-- Embedding of `GetOne` (lines 158-167): first record if any, else nil record
and nil error. -/
def GetOne (convert : List Char → String → Value) (q : Except String Cursor) :
    Option Record × Option DbErr :=
  match doGetAll convert q with
  | (_, some e) => (none, some e)
  | (r :: _, none) => (some r, none)
  | ([], none) => (none, none)

/-- Embedding of `GetStruct` (lines 171-180): a GetOne error propagates; a record
of length zero yields `sql.ErrNoRows`; otherwise the external struct conversion
runs. -/
def GetStruct (convert : List Char → String → Value) (q : Except String Cursor)
    (structConv : Record → Option DbErr) : Option DbErr :=
  match GetOne convert q with
  | (_, some e) => some e
  | (none, none) => some DbErr.noRows
  | (some r, none) => if r.length = 0 then some DbErr.noRows else structConv r

/-- Embedding of `GetValue` (lines 220-229): a GetOne error propagates; a ranged
field value of the record is returned if the record is non-empty (the embedding's
row order standing in for Go's map range); else nil value and nil error. -/
def GetValue (convert : List Char → String → Value) (q : Except String Cursor) :
    Option GVar × Option DbErr :=
  match GetOne convert q with
  | (_, some e) => (none, some e)
  | (some (kv :: _), none) => (some kv.2, none)
  | (some [], none) => (none, none)
  | (none, none) => (none, none)

/-- Embedding of `GetCount` (lines 232-243): rewrite the query with
getCountQuery, fetch the value, and on success invoke the Int conversion on
whatever Value came back — `intFn` is `(*gvar.Var).Int` (outside src/), applied
with no nil check to a possibly-nil (`none`) Value. -/
def GetCount (convert : List Char → String → Value) (intFn : Option GVar → Int)
    (respFor : String → Except String Cursor) (query : String) : Int × Option DbErr :=
  match GetValue convert (respFor (getCountQuery query)) with
  | (_, some e) => (0, some e)
  | (v, none) => (intFn v, none)

/-- Sum of the per-call rows-affected values reported by the stub driver over k
consecutive call indices starting at j. -/
def sumF (f : Nat → Int) (j k : Nat) : Int :=
  ((List.range k).map (fun i => f (j + i))).sum

/-
Helper lemmas.
-/

theorem catLists_nil : catLists ([] : List (List α)) = [] := rfl

theorem catLists_append (as bs : List (List α)) :
    catLists (as ++ bs) = catLists as ++ catLists bs := by
  induction as with
  | nil => simp [catLists]
  | cons a as ih => simp [catLists, ih]

theorem sumF_zero (f : Nat → Int) (j : Nat) : sumF f j 0 = 0 := by
  simp [sumF]

theorem sumF_one (f : Nat → Int) (j : Nat) : sumF f j 1 = f j := by
  simp [sumF, List.range_succ]

theorem sumF_succ_back (f : Nat → Int) (j k : Nat) :
    sumF f j (k + 1) = sumF f j k + f (j + k) := by
  simp [sumF, List.range_succ]

theorem sumF_succ_front (f : Nat → Int) (j k : Nat) :
    sumF f j (k + 1) = f j + sumF f (j + 1) k := by
  induction k with
  | zero => simp [sumF_one, sumF_zero]
  | succ k ih =>
      rw [sumF_succ_back, ih, sumF_succ_back, add_assoc]
      have : j + (k + 1) = j + 1 + k := by omega
      rw [this]

theorem batchLoop_step_ok (cfg : BatchCfg) (r : Row) (rest : List Row) (callIdx : Nat)
    (params0 : List Value) (values0 : List String) (acc : Int) (last : Option Int)
    (calls : List Stmt) (n : Int)
    (hcond : (values0 ++ [cfg.holder]).length = cfg.batchNum ∨ rest = [])
    (hex : cfg.exec callIdx
        ⟨cfg.mkSql (values0 ++ [cfg.holder]), params0 ++ rowParams cfg.keys r⟩
      = Except.ok n) :
    batchLoop cfg (r :: rest) callIdx params0 values0 acc last calls =
      batchLoop cfg rest (callIdx + 1) [] [] (acc + n) (some n)
        (calls ++ [⟨cfg.mkSql (values0 ++ [cfg.holder]), params0 ++ rowParams cfg.keys r⟩]) := by
  have hcond2 : (values0 ++ [cfg.holder]).length = cfg.batchNum ∨
      (rest = [] ∧ 0 < (values0 ++ [cfg.holder]).length) := by
    rcases hcond with h | h
    · exact Or.inl h
    · exact Or.inr ⟨h, by simp⟩
  rw [batchLoop, if_pos hcond2, hex]

theorem batchLoop_step_err (cfg : BatchCfg) (r : Row) (rest : List Row) (callIdx : Nat)
    (params0 : List Value) (values0 : List String) (acc : Int) (last : Option Int)
    (calls : List Stmt) (e : String)
    (hcond : (values0 ++ [cfg.holder]).length = cfg.batchNum ∨ rest = [])
    (hex : cfg.exec callIdx
        ⟨cfg.mkSql (values0 ++ [cfg.holder]), params0 ++ rowParams cfg.keys r⟩
      = Except.error e) :
    batchLoop cfg (r :: rest) callIdx params0 values0 acc last calls =
      ⟨calls ++ [⟨cfg.mkSql (values0 ++ [cfg.holder]), params0 ++ rowParams cfg.keys r⟩],
       none, some e⟩ := by
  have hcond2 : (values0 ++ [cfg.holder]).length = cfg.batchNum ∨
      (rest = [] ∧ 0 < (values0 ++ [cfg.holder]).length) := by
    rcases hcond with h | h
    · exact Or.inl h
    · exact Or.inr ⟨h, by simp⟩
  rw [batchLoop, if_pos hcond2, hex]

theorem batchLoop_step_skip (cfg : BatchCfg) (r : Row) (rest : List Row) (callIdx : Nat)
    (params0 : List Value) (values0 : List String) (acc : Int) (last : Option Int)
    (calls : List Stmt)
    (hlen : (values0 ++ [cfg.holder]).length ≠ cfg.batchNum) (hrest : rest ≠ []) :
    batchLoop cfg (r :: rest) callIdx params0 values0 acc last calls =
      batchLoop cfg rest callIdx (params0 ++ rowParams cfg.keys r)
        (values0 ++ [cfg.holder]) acc last calls := by
  have hcond2 : ¬ ((values0 ++ [cfg.holder]).length = cfg.batchNum ∨
      (rest = [] ∧ 0 < (values0 ++ [cfg.holder]).length)) := by
    rintro (h | ⟨h, _⟩)
    · exact hlen h
    · exact hrest h
  rw [batchLoop, if_neg hcond2]

theorem batchLoop_nil (cfg : BatchCfg) (callIdx : Nat) (params0 : List Value)
    (values0 : List String) (acc : Int) (last : Option Int) (calls : List Stmt) :
    batchLoop cfg [] callIdx params0 values0 acc last calls =
      ⟨calls, some (SqlResult.batch acc last), none⟩ := by
  rw [batchLoop]

theorem batchLoop_ok_spec (cfg : BatchCfg) (f : Nat → Int)
    (hexec : ∀ i s, cfg.exec i s = Except.ok (f i)) (hc : 1 ≤ cfg.batchNum) :
    ∀ (rows pend : List Row) (callIdx : Nat) (acc : Int) (last : Option Int)
      (calls : List Stmt), rows ≠ [] → pend.length < cfg.batchNum →
      ∃ newCalls : List Stmt,
        batchLoop cfg rows callIdx (catLists (pend.map (rowParams cfg.keys)))
            (List.replicate pend.length cfg.holder) acc last calls
          = ⟨calls ++ newCalls,
             some (SqlResult.batch
               (acc + sumF f callIdx
                 ((rows.length + pend.length + cfg.batchNum - 1) / cfg.batchNum))
               (some (f (callIdx +
                 (rows.length + pend.length + cfg.batchNum - 1) / cfg.batchNum - 1)))),
             none⟩
          ∧ newCalls.length = (rows.length + pend.length + cfg.batchNum - 1) / cfg.batchNum
          ∧ catLists (newCalls.map Stmt.args) = catLists ((pend ++ rows).map (rowParams cfg.keys))
          ∧ ∀ s ∈ newCalls, ∃ g, 1 ≤ g ∧ g ≤ cfg.batchNum ∧
              s.sql = cfg.mkSql (List.replicate g cfg.holder) := by
  intro rows
  induction rows with
  | nil => intro pend callIdx acc last calls hne hp; exact absurd rfl hne
  | cons r rest ih =>
    intro pend callIdx acc last calls _ hp
    have hpos : 0 < cfg.batchNum := hc
    cases rest with
    | nil =>
      have hk : ((r :: ([] : List Row)).length + pend.length + cfg.batchNum - 1) / cfg.batchNum
          = 1 := by
        have h1 : (r :: ([] : List Row)).length + pend.length + cfg.batchNum - 1
            = pend.length + cfg.batchNum := by
          simp only [List.length_cons, List.length_nil]
          omega
        rw [h1, Nat.add_div_right _ hpos, Nat.div_eq_of_lt hp]
      rw [batchLoop_step_ok cfg r [] callIdx _ _ acc last calls (f callIdx) (Or.inr rfl)
        (hexec callIdx _), batchLoop_nil]
      refine ⟨[⟨cfg.mkSql (List.replicate pend.length cfg.holder ++ [cfg.holder]),
        catLists (pend.map (rowParams cfg.keys)) ++ rowParams cfg.keys r⟩], ?_, ?_, ?_, ?_⟩
      · rw [hk, sumF_one]
        simp
      · rw [hk]
        rfl
      · simp [catLists, catLists_append]
      · intro s hs
        simp only [List.mem_singleton] at hs
        subst hs
        exact ⟨pend.length + 1, by omega, by omega, by simp [List.replicate_succ']⟩
    | cons r2 rest2 =>
      by_cases hfull : pend.length + 1 = cfg.batchNum
      · have hcondL : (List.replicate pend.length cfg.holder ++ [cfg.holder]).length
            = cfg.batchNum := by
          simp only [List.length_append, List.length_replicate, List.length_cons,
            List.length_nil]
          omega
        rw [batchLoop_step_ok cfg r (r2 :: rest2) callIdx _ _ acc last calls (f callIdx)
          (Or.inl hcondL) (hexec callIdx _)]
        obtain ⟨nc, heq, hlen, hargs, hsql⟩ :=
          ih [] (callIdx + 1) (acc + f callIdx) (some (f callIdx))
            (calls ++ [⟨cfg.mkSql (List.replicate pend.length cfg.holder ++ [cfg.holder]),
              catLists (pend.map (rowParams cfg.keys)) ++ rowParams cfg.keys r⟩])
            (by simp) (by simpa using hpos)
        simp only [List.map_nil, List.length_nil, List.replicate_zero, catLists_nil,
          add_zero, List.nil_append] at heq hlen hargs
        have hK : ((r :: r2 :: rest2).length + pend.length + cfg.batchNum - 1) / cfg.batchNum
            = ((r2 :: rest2).length + cfg.batchNum - 1) / cfg.batchNum + 1 := by
          have h2 : (r :: r2 :: rest2).length + pend.length + cfg.batchNum - 1
              = ((r2 :: rest2).length + cfg.batchNum - 1) + cfg.batchNum := by
            simp only [List.length_cons]
            omega
          rw [h2, Nat.add_div_right _ hpos]
        refine ⟨⟨cfg.mkSql (List.replicate pend.length cfg.holder ++ [cfg.holder]),
          catLists (pend.map (rowParams cfg.keys)) ++ rowParams cfg.keys r⟩ :: nc,
          ?_, ?_, ?_, ?_⟩
        · rw [heq, hK]
          generalize ((r2 :: rest2).length + cfg.batchNum - 1) / cfg.batchNum = kk
          rw [sumF_succ_front]
          have e1 : callIdx + 1 + kk - 1 = callIdx + (kk + 1) - 1 := by omega
          rw [← add_assoc, ← e1]
          simp [List.append_assoc]
        · rw [hK]
          simp [hlen]
        · simp only [List.map_cons, catLists, hargs]
          simp [catLists_append, catLists]
        · intro s hs
          rcases List.mem_cons.mp hs with h | h
          · subst h
            exact ⟨pend.length + 1, by omega, by omega, by simp [List.replicate_succ']⟩
          · exact hsql s h
      · have hlenne : (List.replicate pend.length cfg.holder ++ [cfg.holder]).length
            ≠ cfg.batchNum := by
          simp only [List.length_append, List.length_replicate, List.length_cons,
            List.length_nil]
          omega
        rw [batchLoop_step_skip cfg r (r2 :: rest2) callIdx _ _ acc last calls hlenne
          (by simp)]
        have hparams : catLists (pend.map (rowParams cfg.keys)) ++ rowParams cfg.keys r
            = catLists ((pend ++ [r]).map (rowParams cfg.keys)) := by
          simp [catLists, catLists_append]
        have hvalues : List.replicate pend.length cfg.holder ++ [cfg.holder]
            = List.replicate ((pend ++ [r]).length) cfg.holder := by
          have h3 : (pend ++ [r]).length = pend.length + 1 := by simp
          rw [h3, List.replicate_succ']
        rw [hparams, hvalues]
        obtain ⟨nc, heq, hlen, hargs, hsql⟩ :=
          ih (pend ++ [r]) callIdx acc last calls (by simp)
            (by simp only [List.length_append, List.length_cons, List.length_nil]; omega)
        have hnum : (r2 :: rest2).length + (pend ++ [r]).length + cfg.batchNum - 1
            = (r :: r2 :: rest2).length + pend.length + cfg.batchNum - 1 := by
          simp only [List.length_append, List.length_cons, List.length_nil]
          omega
        have hlist : (pend ++ [r]) ++ (r2 :: rest2) = pend ++ (r :: r2 :: rest2) := by
          simp
        rw [hnum] at heq hlen
        rw [hlist] at hargs
        exact ⟨nc, heq, hlen, hargs, hsql⟩

theorem batchLoop_fail_spec (cfg : BatchCfg) (K : Nat) (e : String) (f : Nat → Int)
    (hok : ∀ i s, i < K → cfg.exec i s = Except.ok (f i))
    (hfail : ∀ s, cfg.exec K s = Except.error e) (hc : 1 ≤ cfg.batchNum) :
    ∀ (rows pend : List Row) (callIdx : Nat) (acc : Int) (last : Option Int)
      (calls : List Stmt), rows ≠ [] → pend.length < cfg.batchNum →
      callIdx ≤ K →
      K < callIdx + (rows.length + pend.length + cfg.batchNum - 1) / cfg.batchNum →
      ∃ newCalls : List Stmt,
        batchLoop cfg rows callIdx (catLists (pend.map (rowParams cfg.keys)))
            (List.replicate pend.length cfg.holder) acc last calls
          = ⟨calls ++ newCalls, none, some e⟩
        ∧ newCalls.length = K - callIdx + 1 := by
  intro rows
  induction rows with
  | nil => intro pend callIdx acc last calls hne hp hle hlt; exact absurd rfl hne
  | cons r rest ih =>
    intro pend callIdx acc last calls _ hp hle hlt
    have hpos : 0 < cfg.batchNum := hc
    cases rest with
    | nil =>
      have hk : ((r :: ([] : List Row)).length + pend.length + cfg.batchNum - 1) / cfg.batchNum
          = 1 := by
        have h1 : (r :: ([] : List Row)).length + pend.length + cfg.batchNum - 1
            = pend.length + cfg.batchNum := by
          simp only [List.length_cons, List.length_nil]
          omega
        rw [h1, Nat.add_div_right _ hpos, Nat.div_eq_of_lt hp]
      rw [hk] at hlt
      have hKeq : callIdx = K := by omega
      subst hKeq
      rw [batchLoop_step_err cfg r [] callIdx _ _ acc last calls e (Or.inr rfl) (hfail _)]
      exact ⟨[⟨cfg.mkSql (List.replicate pend.length cfg.holder ++ [cfg.holder]),
        catLists (pend.map (rowParams cfg.keys)) ++ rowParams cfg.keys r⟩], rfl, by simp⟩
    | cons r2 rest2 =>
      by_cases hfull : pend.length + 1 = cfg.batchNum
      · have hcondL : (List.replicate pend.length cfg.holder ++ [cfg.holder]).length
            = cfg.batchNum := by
          simp only [List.length_append, List.length_replicate, List.length_cons,
            List.length_nil]
          omega
        by_cases hKeq : callIdx = K
        · subst hKeq
          rw [batchLoop_step_err cfg r (r2 :: rest2) callIdx _ _ acc last calls e
            (Or.inl hcondL) (hfail _)]
          exact ⟨[⟨cfg.mkSql (List.replicate pend.length cfg.holder ++ [cfg.holder]),
            catLists (pend.map (rowParams cfg.keys)) ++ rowParams cfg.keys r⟩], rfl, by simp⟩
        · have hlt2 : callIdx < K := by omega
          rw [batchLoop_step_ok cfg r (r2 :: rest2) callIdx _ _ acc last calls (f callIdx)
            (Or.inl hcondL) (hok callIdx _ hlt2)]
          have hK : ((r :: r2 :: rest2).length + pend.length + cfg.batchNum - 1) / cfg.batchNum
              = ((r2 :: rest2).length + cfg.batchNum - 1) / cfg.batchNum + 1 := by
            have h2 : (r :: r2 :: rest2).length + pend.length + cfg.batchNum - 1
                = ((r2 :: rest2).length + cfg.batchNum - 1) + cfg.batchNum := by
              simp only [List.length_cons]
              omega
            rw [h2, Nat.add_div_right _ hpos]
          rw [hK] at hlt
          obtain ⟨nc, heq, hlen⟩ :=
            ih [] (callIdx + 1) (acc + f callIdx) (some (f callIdx))
              (calls ++ [⟨cfg.mkSql (List.replicate pend.length cfg.holder ++ [cfg.holder]),
                catLists (pend.map (rowParams cfg.keys)) ++ rowParams cfg.keys r⟩])
              (by simp) (by simpa using hpos) (by omega) (by
                simp only [List.length_nil, add_zero]
                omega)
          simp only [List.map_nil, List.length_nil, List.replicate_zero, catLists_nil] at heq
          rw [heq]
          refine ⟨⟨cfg.mkSql (List.replicate pend.length cfg.holder ++ [cfg.holder]),
            catLists (pend.map (rowParams cfg.keys)) ++ rowParams cfg.keys r⟩ :: nc, ?_, ?_⟩
          · simp [List.append_assoc]
          · simp only [List.length_cons, hlen]
            omega
      · have hlenne : (List.replicate pend.length cfg.holder ++ [cfg.holder]).length
            ≠ cfg.batchNum := by
          simp only [List.length_append, List.length_replicate, List.length_cons,
            List.length_nil]
          omega
        rw [batchLoop_step_skip cfg r (r2 :: rest2) callIdx _ _ acc last calls hlenne
          (by simp)]
        have hparams : catLists (pend.map (rowParams cfg.keys)) ++ rowParams cfg.keys r
            = catLists ((pend ++ [r]).map (rowParams cfg.keys)) := by
          simp [catLists, catLists_append]
        have hvalues : List.replicate pend.length cfg.holder ++ [cfg.holder]
            = List.replicate ((pend ++ [r]).length) cfg.holder := by
          have h3 : (pend ++ [r]).length = pend.length + 1 := by simp
          rw [h3, List.replicate_succ']
        rw [hparams, hvalues]
        have hnum : (r2 :: rest2).length + (pend ++ [r]).length + cfg.batchNum - 1
            = (r :: r2 :: rest2).length + pend.length + cfg.batchNum - 1 := by
          simp only [List.length_append, List.length_cons, List.length_nil]
          omega
        obtain ⟨nc, heq, hlen⟩ :=
          ih (pend ++ [r]) callIdx acc last calls (by simp)
            (by simp only [List.length_append, List.length_cons, List.length_nil]; omega)
            hle (by rw [hnum]; exact hlt)
        exact ⟨nc, heq, hlen⟩

theorem doBatchInsert_cons (exec : Nat → Stmt → Except String Int)
    (charL charR table : String) (first : Row) (rest : List Row) (opt : InsertOption)
    (batch : Option Nat) :
    doBatchInsert exec charL charR table (first :: rest) opt batch =
      batchLoop
        ⟨exec,
         chunkSql (getInsertOperation opt) table
           (batchKeysStr charL charR (first.map Prod.fst))
           (insertUpdateStr charL charR opt (first.map Prod.fst)),
         first.map Prod.fst,
         holderOf (first.map Prod.fst),
         batchNumOf batch⟩
        (first :: rest) 0 [] [] 0 none [] := by
  rw [doBatchInsert]

theorem batchNumOf_pos (b : Option Nat) : 1 ≤ batchNumOf b := by
  cases b with
  | none => simp [batchNumOf, gDEFAULT_BATCH_NUM]
  | some k =>
      simp only [batchNumOf, gDEFAULT_BATCH_NUM]
      split <;> omega

/-- C1: for every batch insert (any write-mode) over a row list of size m with
chunk size c, executed against a stub link whose exec call i reports f i
rows-affected and never fails, exactly ceil(m/c) = (m + c - 1) / c exec calls are
issued against the link, and the returned aggregate result's rows-affected equals
the sum of the rows-affected reported by each individual exec call. -/
theorem batchInsert_chunk_count_and_sum
    (exec : Nat → Stmt → Except String Int) (f : Nat → Int)
    (hexec : ∀ i s, exec i s = Except.ok (f i))
    (charL charR table : String) (opt : InsertOption) (rows : List Row) (c : Nat)
    (hne : rows ≠ []) (hc : 0 < c) :
    (doBatchInsert exec charL charR table rows opt (some c)).calls.length
        = (rows.length + c - 1) / c
    ∧ (doBatchInsert exec charL charR table rows opt (some c)).result
        = some (SqlResult.batch (sumF f 0 ((rows.length + c - 1) / c))
            (some (f ((rows.length + c - 1) / c - 1))))
    ∧ (doBatchInsert exec charL charR table rows opt (some c)).error = none := by
  cases rows with
  | nil => exact absurd rfl hne
  | cons first rest =>
    have hbn : batchNumOf (some c) = c := by
      simp [batchNumOf, hc]
    obtain ⟨nc, heq, hlen, -, -⟩ :=
      batchLoop_ok_spec
        ⟨exec,
         chunkSql (getInsertOperation opt) table
           (batchKeysStr charL charR (first.map Prod.fst))
           (insertUpdateStr charL charR opt (first.map Prod.fst)),
         first.map Prod.fst,
         holderOf (first.map Prod.fst),
         batchNumOf (some c)⟩
        f (fun i s => hexec i s) (by rw [show (⟨exec, chunkSql (getInsertOperation opt) table
            (batchKeysStr charL charR (first.map Prod.fst))
            (insertUpdateStr charL charR opt (first.map Prod.fst)),
          first.map Prod.fst, holderOf (first.map Prod.fst),
          batchNumOf (some c)⟩ : BatchCfg).batchNum = batchNumOf (some c) from rfl, hbn]; omega)
        (first :: rest) [] 0 0 none [] (by simp) (by simp [hbn, hc])
    simp only [List.map_nil, catLists_nil, List.length_nil, List.replicate_zero,
      add_zero] at heq hlen
    rw [doBatchInsert_cons, heq]
    simp only [List.nil_append]
    rw [hbn] at hlen
    refine ⟨hlen, ?_, ?_⟩
    · simp [hbn]
    · simp

/-- C1 witness: three one-column rows with chunk size 2 and a stub reporting 5
rows affected per call: two exec calls, aggregate 5 + 5. -/
theorem batchInsert_chunk_count_and_sum_w :
    (doBatchInsert (fun _ _ => Except.ok 5) "w" "w" "t"
        [[("a", Value.int 1)], [("a", Value.int 2)], [("a", Value.int 3)]]
        InsertOption.dflt (some 2)).calls.length = 2
    ∧ (doBatchInsert (fun _ _ => Except.ok 5) "w" "w" "t"
        [[("a", Value.int 1)], [("a", Value.int 2)], [("a", Value.int 3)]]
        InsertOption.dflt (some 2)).result
        = some (SqlResult.batch 10 (some 5))
    ∧ (doBatchInsert (fun _ _ => Except.ok 5) "w" "w" "t"
        [[("a", Value.int 1)], [("a", Value.int 2)], [("a", Value.int 3)]]
        InsertOption.dflt (some 2)).error = none := by
  have h := batchInsert_chunk_count_and_sum (fun _ _ => Except.ok 5) (fun _ => 5)
    (fun i s => rfl) "w" "w" "t" InsertOption.dflt
    [[("a", Value.int 1)], [("a", Value.int 2)], [("a", Value.int 3)]] 2
    (by simp) (by omega)
  norm_num [sumF, List.range_succ] at h
  exact h

/-- C2 (amended): when a chunk's exec call fails during a batch insert,
doBatchInsert stops immediately without attempting any further chunk and returns
the first encountered error; the result value it returns, however, is the failing
exec call's own (nil) result — not the partial AggregateExecResult accumulated
over the already-applied chunks. -/
theorem batchInsert_stops_at_first_error
    (exec : Nat → Stmt → Except String Int) (K : Nat) (e : String) (f : Nat → Int)
    (hok : ∀ i s, i < K → exec i s = Except.ok (f i))
    (hfail : ∀ s, exec K s = Except.error e)
    (charL charR table : String) (opt : InsertOption) (rows : List Row) (c : Nat)
    (hne : rows ≠ []) (hc : 0 < c)
    (hK : K < (rows.length + c - 1) / c) :
    (doBatchInsert exec charL charR table rows opt (some c)).result = none
    ∧ (doBatchInsert exec charL charR table rows opt (some c)).error = some e
    ∧ (doBatchInsert exec charL charR table rows opt (some c)).calls.length = K + 1 := by
  cases rows with
  | nil => exact absurd rfl hne
  | cons first rest =>
    have hbn : batchNumOf (some c) = c := by
      simp [batchNumOf, hc]
    obtain ⟨nc, heq, hlen⟩ :=
      batchLoop_fail_spec
        ⟨exec,
         chunkSql (getInsertOperation opt) table
           (batchKeysStr charL charR (first.map Prod.fst))
           (insertUpdateStr charL charR opt (first.map Prod.fst)),
         first.map Prod.fst,
         holderOf (first.map Prod.fst),
         batchNumOf (some c)⟩
        K e f (fun i s hi => hok i s hi) (fun s => hfail s)
        (by simp only [hbn]; omega)
        (first :: rest) [] 0 0 none [] (by simp) (by simp [hbn, hc])
        (Nat.zero_le K) (by simpa [hbn] using hK)
    simp only [List.map_nil, catLists_nil, List.length_nil, List.replicate_zero,
      add_zero] at heq hlen
    rw [doBatchInsert_cons, heq]
    refine ⟨rfl, rfl, ?_⟩
    simp only [List.nil_append, hlen]
    omega

/-- C2 witness: three single-column rows with chunk size 1 and a stub failing on
the second call: two exec calls made (the third chunk never attempted), the first
error surfaced, and a nil result. -/
theorem batchInsert_stops_at_first_error_w :
    (doBatchInsert (fun i _ => if i < 1 then Except.ok 5 else Except.error "boom")
        "w" "w" "t" [[("a", Value.int 1)], [("a", Value.int 2)], [("a", Value.int 3)]]
        InsertOption.dflt (some 1)).result = none
    ∧ (doBatchInsert (fun i _ => if i < 1 then Except.ok 5 else Except.error "boom")
        "w" "w" "t" [[("a", Value.int 1)], [("a", Value.int 2)], [("a", Value.int 3)]]
        InsertOption.dflt (some 1)).error = some "boom"
    ∧ (doBatchInsert (fun i _ => if i < 1 then Except.ok 5 else Except.error "boom")
        "w" "w" "t" [[("a", Value.int 1)], [("a", Value.int 2)], [("a", Value.int 3)]]
        InsertOption.dflt (some 1)).calls.length = 1 + 1 :=
  batchInsert_stops_at_first_error
    (fun i _ => if i < 1 then Except.ok 5 else Except.error "boom") 1 "boom" (fun _ => 5)
    (fun i s hi => by simp [hi]) (fun s => rfl)
    "w" "w" "t" InsertOption.dflt
    [[("a", Value.int 1)], [("a", Value.int 2)], [("a", Value.int 3)]] 1
    (by simp) (by omega) (by simp)

/-- C2 counterexample: two one-chunk rows, the first exec reporting 5 rows
affected and the second failing.  The claim says the partial AggregateExecResult
(aggregate 5 over the applied chunk) is returned with the error; the code instead
returns the failing exec call's nil result — the result is `none`, not any
aggregate. -/
theorem batchInsert_error_result_counterexample :
    (doBatchInsert (fun i _ => if i = 0 then Except.ok 5 else Except.error "boom")
        "w" "w" "t" [[("a", Value.int 1)], [("a", Value.int 2)]]
        InsertOption.dflt (some 1)).error = some "boom"
    ∧ (doBatchInsert (fun i _ => if i = 0 then Except.ok 5 else Except.error "boom")
        "w" "w" "t" [[("a", Value.int 1)], [("a", Value.int 2)]]
        InsertOption.dflt (some 1)).result = none
    ∧ (doBatchInsert (fun i _ => if i = 0 then Except.ok 5 else Except.error "boom")
        "w" "w" "t" [[("a", Value.int 1)], [("a", Value.int 2)]]
        InsertOption.dflt (some 1)).result ≠ some (SqlResult.batch 5 (some 5)) := by
  refine ⟨rfl, rfl, ?_⟩
  intro h
  rw [show (doBatchInsert (fun i _ => if i = 0 then Except.ok 5 else Except.error "boom")
      "w" "w" "t" [[("a", Value.int 1)], [("a", Value.int 2)]]
      InsertOption.dflt (some 1)).result = none from rfl] at h
  exact Option.noConfusion h

/-- C3 (amended): an empty input row list yields the data-empty error before any
exec call is issued; but a batch whose computed column list is empty is NOT
validated: a batch of one empty row proceeds to issue one driver exec call and
returns no error. -/
theorem batchInsert_empty_validation
    (exec : Nat → Stmt → Except String Int) (n : Int)
    (hexec : ∀ i s, exec i s = Except.ok n)
    (charL charR table : String) (opt : InsertOption) (batch : Option Nat) :
    doBatchInsert exec charL charR table [] opt batch
        = ⟨[], none, some "data list cannot be empty"⟩
    ∧ (doBatchInsert exec charL charR table [[]] opt batch).error = none
    ∧ (doBatchInsert exec charL charR table [[]] opt batch).calls.length = 1 := by
  have hrun : doBatchInsert exec charL charR table [[]] opt batch
      = batchLoop
          ⟨exec,
           chunkSql (getInsertOperation opt) table (batchKeysStr charL charR [])
             (insertUpdateStr charL charR opt []),
           [], holderOf [], batchNumOf batch⟩
          [([] : Row)] 0 [] [] 0 none [] := by
    rw [doBatchInsert_cons]
    rfl
  have hstep := batchLoop_step_ok
    ⟨exec,
     chunkSql (getInsertOperation opt) table (batchKeysStr charL charR [])
       (insertUpdateStr charL charR opt []),
     [], holderOf [], batchNumOf batch⟩
    ([] : Row) [] 0 [] [] 0 none [] n (Or.inr rfl) (hexec 0 _)
  rw [batchLoop_nil] at hstep
  refine ⟨rfl, ?_, ?_⟩
  · rw [hrun, hstep]
  · rw [hrun, hstep]
    rfl

/-- C3 witness: a concrete always-succeeding stub instantiating the amended
statement. -/
theorem batchInsert_empty_validation_w :
    doBatchInsert (fun _ _ => Except.ok 1) "w" "w" "t" [] InsertOption.dflt none
        = ⟨[], none, some "data list cannot be empty"⟩
    ∧ (doBatchInsert (fun _ _ => Except.ok 1) "w" "w" "t" [[]] InsertOption.dflt none).error
        = none
    ∧ (doBatchInsert (fun _ _ => Except.ok 1) "w" "w" "t" [[]] InsertOption.dflt
        none).calls.length = 1 :=
  batchInsert_empty_validation (fun _ _ => Except.ok 1) 1 (fun _ _ => rfl)
    "w" "w" "t" InsertOption.dflt none

/-- C3 counterexample: a batch consisting of one empty row — its computed column
list is empty — is not rejected with a data-empty error before the driver is
reached: one exec call is issued (with an empty column list) and no error is
returned, refuting the claimed DataEmpty validation of the empty-column case. -/
theorem batch_empty_columns_counterexample :
    (doBatchInsert (fun _ _ => Except.ok 1) "q" "q" "t" [[]] InsertOption.dflt
        none).error = none
    ∧ (doBatchInsert (fun _ _ => Except.ok 1) "q" "q" "t" [[]] InsertOption.dflt
        none).calls.length = 1
    ∧ (doBatchInsert (fun _ _ => Except.ok 1) "q" "q" "t" [[]] InsertOption.dflt
        none).error ≠ some "data list cannot be empty" := by
  refine ⟨rfl, rfl, ?_⟩
  intro h
  rw [show (doBatchInsert (fun _ _ => Except.ok 1) "q" "q" "t" [[]] InsertOption.dflt
      none).error = none from rfl] at h
  exact Option.noConfusion h

/-- C9: against an always-succeeding stub link, every chunk statement of a batch
insert takes its column list and its duplicate-key clause solely from the first
row of the batch (each chunk's SQL is the shared first-row-derived text applied to
g holder groups, 1 ≤ g ≤ c), each row's argument values are retrieved by the
first-row keys in that fixed order (the concatenation of all chunks' argument
lists is exactly the row-by-row first-row-key lookups), and rows whose key sets
differ from the first row's produce no error. -/
theorem batch_columns_from_first_row_only
    (exec : Nat → Stmt → Except String Int) (f : Nat → Int)
    (hexec : ∀ i s, exec i s = Except.ok (f i))
    (charL charR table : String) (opt : InsertOption) (rows : List Row) (c : Nat)
    (hne : rows ≠ []) (hc : 0 < c) :
    (doBatchInsert exec charL charR table rows opt (some c)).error = none
    ∧ catLists (((doBatchInsert exec charL charR table rows opt (some c)).calls).map
          Stmt.args)
        = catLists (rows.map (rowParams (firstKeys rows)))
    ∧ ∀ s ∈ (doBatchInsert exec charL charR table rows opt (some c)).calls,
        ∃ g, 1 ≤ g ∧ g ≤ c ∧
          s.sql = chunkSql (getInsertOperation opt) table
            (batchKeysStr charL charR (firstKeys rows))
            (insertUpdateStr charL charR opt (firstKeys rows))
            (List.replicate g (holderOf (firstKeys rows))) := by
  cases rows with
  | nil => exact absurd rfl hne
  | cons first rest =>
    have hbn : batchNumOf (some c) = c := by
      simp [batchNumOf, hc]
    have hfk : firstKeys (first :: rest) = first.map Prod.fst := by
      simp [firstKeys]
    obtain ⟨nc, heq, -, hargs, hsql⟩ :=
      batchLoop_ok_spec
        ⟨exec,
         chunkSql (getInsertOperation opt) table
           (batchKeysStr charL charR (first.map Prod.fst))
           (insertUpdateStr charL charR opt (first.map Prod.fst)),
         first.map Prod.fst,
         holderOf (first.map Prod.fst),
         batchNumOf (some c)⟩
        f (fun i s => hexec i s) (by simp only [hbn]; omega)
        (first :: rest) [] 0 0 none [] (by simp) (by simp [hbn, hc])
    simp only [List.map_nil, catLists_nil, List.length_nil, List.replicate_zero,
      add_zero, List.nil_append] at heq hargs
    rw [doBatchInsert_cons, heq, hfk]
    refine ⟨rfl, ?_, ?_⟩
    · simpa using hargs
    · intro s hs
      simp only [List.nil_append] at hs
      obtain ⟨g, hg1, hg2, hg3⟩ := hsql s hs
      exact ⟨g, hg1, by simpa [hbn] using hg2, hg3⟩

/-- C9 witness: a two-row batch whose second row's key set differs from the
first row's: the single chunk statement is derived from the first row's key, the
second row's argument is the (null) lookup of the first-row key, and no error is
produced. -/
theorem batch_columns_from_first_row_only_w :
    (doBatchInsert (fun _ _ => Except.ok 1) "w" "w" "t"
        [[("id", Value.int 7)], [("name", Value.str "x")]]
        InsertOption.save (some 10)).error = none
    ∧ catLists (((doBatchInsert (fun _ _ => Except.ok 1) "w" "w" "t"
          [[("id", Value.int 7)], [("name", Value.str "x")]]
          InsertOption.save (some 10)).calls).map Stmt.args)
        = catLists ([[("id", Value.int 7)], [("name", Value.str "x")]].map
            (rowParams (firstKeys [[("id", Value.int 7)], [("name", Value.str "x")]])))
    ∧ ∀ s ∈ (doBatchInsert (fun _ _ => Except.ok 1) "w" "w" "t"
          [[("id", Value.int 7)], [("name", Value.str "x")]]
          InsertOption.save (some 10)).calls,
        ∃ g, 1 ≤ g ∧ g ≤ 10 ∧
          s.sql = chunkSql (getInsertOperation InsertOption.save) "t"
            (batchKeysStr "w" "w"
              (firstKeys [[("id", Value.int 7)], [("name", Value.str "x")]]))
            (insertUpdateStr "w" "w" InsertOption.save
              (firstKeys [[("id", Value.int 7)], [("name", Value.str "x")]]))
            (List.replicate g
              (holderOf (firstKeys [[("id", Value.int 7)], [("name", Value.str "x")]]))) :=
  batch_columns_from_first_row_only (fun _ _ => Except.ok 1) (fun _ => 1)
    (fun i s => rfl) "w" "w" "t" InsertOption.save
    [[("id", Value.int 7)], [("name", Value.str "x")]] 10 (by simp) (by omega)

/-- C4: GetCount rewrites the field list into a COUNT aggregate only when the
query does not already contain a COUNT aggregate between SELECT and FROM:
"SELECT * FROM users" becomes "SELECT COUNT(*) FROM users", while
"SELECT COUNT(*) FROM users" already matches the COUNT pattern and passes
through unchanged. -/
theorem getCount_rewrites_only_without_count :
    getCountQuery "SELECT * FROM users" = "SELECT COUNT(*) FROM users"
    ∧ getCountQuery "SELECT COUNT(*) FROM users" = "SELECT COUNT(*) FROM users" :=
  ⟨rfl, rfl⟩

theorem strJoin_cons_pos (sep x : String) (xs : List String) (hx : 0 < x.length) :
    0 < (strJoin sep (x :: xs)).length := by
  cases xs with
  | nil => simpa [strJoin] using hx
  | cons y ys =>
      simp only [strJoin, String.length_append]
      omega

/-- C5: for every Update with record-like data and a condition with its own
arguments, the built statement is UPDATE <table> SET <assignments><condition>
where the assignments are quoted-column =? pairs, and the final argument list is
the data values followed by the condition arguments; the spec's concrete example
with data name=john and formatted condition ("id=?", 10000) produces exactly
that statement; empty assignments fail with the data-empty error. -/
theorem update_data_args_precede_condition_args
    (charL charR table : String) (kv : String × Value) (fs : List (String × Value))
    (cond : String) (condArgs : List Value) :
    doUpdate charL charR table (UpdateData.record (kv :: fs)) cond condArgs
        = Except.ok
            ⟨"UPDATE " ++ table ++ " SET "
                ++ strJoin ","
                    ((kv :: fs).map (fun p => doQuoteWord p.1 charL charR ++ "=?"))
                ++ cond,
             (kv :: fs).map Prod.snd ++ condArgs⟩
    ∧ (∀ cond2 args2, doUpdate charL charR table (UpdateData.record []) cond2 args2
        = Except.error "data cannot be empty")
    ∧ updateStmt "\"" "\"" "users" (UpdateData.record [("name", Value.str "john")])
        "id=?" [Value.int 10000]
        = Except.ok ⟨"UPDATE users SET \"name\"=? WHERE id=?",
            [Value.str "john", Value.int 10000]⟩ := by
  refine ⟨?_, ?_, rfl⟩
  · have hq : ("=?" : String).length = 2 := rfl
    have hx : 0 < (doQuoteWord kv.1 charL charR ++ "=?").length := by
      rw [String.length_append, hq]
      omega
    have hpos : 0 < (strJoin ","
        ((kv :: fs).map (fun p => doQuoteWord p.1 charL charR ++ "=?"))).length := by
      rw [List.map_cons]
      exact strJoin_cons_pos _ _ _ hx
    simp only [doUpdate]
    rw [if_neg (by omega)]
    rw [if_pos (by simp)]
  · intro cond2 args2
    simp [doUpdate, strJoin]

/-- C6: a single-row SAVE insert of (id,1),(name,a) into table t produces
exactly INSERT INTO t("id","name") VALUES(?,?) ON DUPLICATE KEY UPDATE
"id"=VALUES("id"),"name"=VALUES("name") with the row's values as arguments, the
clause listing every column of the row; and for every non-SAVE write-mode the
statement ends after VALUES with an empty update string, so the duplicate-key
clause is never emitted. -/
theorem insert_save_duplicate_clause :
    (doInsert "\"" "\"" "t" [("id", Value.int 1), ("name", Value.str "a")]
        InsertOption.save
      = Except.ok
          ⟨"INSERT INTO t(\"id\",\"name\") VALUES(?,?) ON DUPLICATE KEY UPDATE \"id\"=VALUES(\"id\"),\"name\"=VALUES(\"name\")",
           [Value.int 1, Value.str "a"]⟩)
    ∧ ∀ (charL charR table : String) (kv : String × Value) (row : List (String × Value))
        (opt : InsertOption), opt ≠ InsertOption.save →
        doInsert charL charR table (kv :: row) opt
          = Except.ok
              ⟨getInsertOperation opt ++ " INTO " ++ table ++ "(" ++
                strJoin "," ((kv :: row).map (fun p => charL ++ p.1 ++ charR)) ++
                ") VALUES(" ++ strJoin "," ((kv :: row).map (fun _ => "?")) ++ ") ",
               (kv :: row).map Prod.snd⟩ := by
  refine ⟨rfl, ?_⟩
  intro charL charR table kv row opt hopt
  rw [doInsert, if_neg (by simp)]
  rw [show insertUpdateStr charL charR opt ((kv :: row).map Prod.fst) = "" from
    by simp [insertUpdateStr, hopt]]
  rw [String.append_empty]

/-- C6 witness: the non-SAVE branch instantiated at IGNORE write-mode with a
one-column row. -/
theorem insert_save_duplicate_clause_w :
    doInsert "q" "w" "x" [("a", Value.null)] InsertOption.ignore
      = Except.ok
          ⟨getInsertOperation InsertOption.ignore ++ " INTO " ++ "x" ++ "(" ++
            strJoin "," ([("a", Value.null)].map (fun p => "q" ++ p.1 ++ "w")) ++
            ") VALUES(" ++ strJoin "," ([("a", Value.null)].map (fun _ => "?")) ++ ") ",
           [("a", Value.null)].map Prod.snd⟩ :=
  insert_save_duplicate_clause.2 "q" "w" "x" ("a", Value.null) [] InsertOption.ignore
    (by decide)

theorem copyBytes_eq (b : List Char) : copyBytes b = b := by
  induction b with
  | nil => rfl
  | cons c cs ih => simp [copyBytes, ih]

theorem scanLoop_eq_map (convert : List Char → String → Value) (names types : List String) :
    ∀ (rows : List RawRow) (buf : List (Option (List Char))),
      scanLoop convert names types rows buf = rows.map (buildRecord convert names types) := by
  intro rows
  induction rows with
  | nil => intro buf; rfl
  | cons r rest ih =>
      intro buf
      simp only [scanLoop, List.map_cons]
      rw [ih]

/-- C7: every materialized record is a function of its own scanned row alone —
the copy-before-store of buildRecord snapshots the shared scan buffer at that
row's own iteration, so the materialization of a cursor is the row-by-row decode
of its raw rows (in particular, two consecutive rows scanned through the shared
buffer yield two independently correct records); a non-null cell stores the
conversion of a content-equal copy of its bytes, and a NULL cell is stored as the
explicit null-typed value, a constructor distinct from every converted value
(hence not an empty string). -/
theorem rows_copied_before_store (convert : List Char → String → Value) (cur : Cursor) :
    rowsToResult convert cur = cur.rows.map (buildRecord convert cur.colNames cur.colTypes)
    ∧ (∀ (names types : List String) (r1 r2 : RawRow),
        rowsToResult convert ⟨names, types, [r1, r2]⟩
          = [buildRecord convert names types r1, buildRecord convert names types r2])
    ∧ (∀ (n t : String) (ns ts : List String) (b : List Char) (cs : RawRow),
        buildRecord convert (n :: ns) (t :: ts) (some b :: cs)
            = (n, GVar.val (convert (copyBytes b) t)) :: buildRecord convert ns ts cs
        ∧ copyBytes b = b
        ∧ buildRecord convert (n :: ns) (t :: ts) (none :: cs)
            = (n, GVar.nil) :: buildRecord convert ns ts cs
        ∧ ∀ v, GVar.nil ≠ GVar.val v) := by
  refine ⟨?_, ?_, ?_⟩
  · rcases cur with ⟨names, types, rows⟩
    cases rows with
    | nil => rfl
    | cons r rest =>
        simp only [rowsToResult]
        rw [scanLoop_eq_map]
  · intro names types r1 r2
    simp only [rowsToResult]
    rw [scanLoop_eq_map]
    rfl
  · intro n t ns ts b cs
    exact ⟨rfl, copyBytes_eq b, rfl, fun v h => GVar.noConfusion h⟩

/-- C8: a query whose cursor yields zero rows returns an empty RecordSet and no
error from rowsToResult/doGetAll (a failed query instead carries an error with a
nil result list — "zero rows" and "query failed" are distinct outcomes), while
GetOne on zero rows returns the nil record with nil error (the not-found NoRows
condition, not an error) and GetStruct returns the sql.ErrNoRows sentinel, a
condition distinct from every generic error. -/
theorem zero_rows_not_an_error (convert : List Char → String → Value) (cur : Cursor)
    (structConv : Record → Option DbErr) (m : String) (hz : cur.rows = []) :
    rowsToResult convert cur = []
    ∧ doGetAll convert (Except.ok cur) = ([], none)
    ∧ doGetAll convert (Except.error m) = ([], some (DbErr.other m))
    ∧ GetOne convert (Except.ok cur) = (none, none)
    ∧ GetStruct convert (Except.ok cur) structConv = some DbErr.noRows
    ∧ ∀ m2, DbErr.noRows ≠ DbErr.other m2 := by
  have h1 : rowsToResult convert cur = [] := by
    rw [rowsToResult, hz]
  have h2 : doGetAll convert (Except.ok cur) = ([], none) := by
    simp only [doGetAll]
    rw [h1]
  have h4 : GetOne convert (Except.ok cur) = (none, none) := by
    simp only [GetOne]
    rw [h2]
  have h5 : GetStruct convert (Except.ok cur) structConv = some DbErr.noRows := by
    simp only [GetStruct]
    rw [h4]
  exact ⟨h1, h2, rfl, h4, h5, fun m2 h => DbErr.noConfusion h⟩

/-- C8 witness: a concrete zero-row cursor. -/
theorem zero_rows_not_an_error_w :
    rowsToResult (fun _ _ => Value.null) ⟨["id"], ["INT"], []⟩ = []
    ∧ doGetAll (fun _ _ => Value.null) (Except.ok ⟨["id"], ["INT"], []⟩) = ([], none)
    ∧ doGetAll (fun _ _ => Value.null) (Except.error "bad")
        = ([], some (DbErr.other "bad"))
    ∧ GetOne (fun _ _ => Value.null) (Except.ok ⟨["id"], ["INT"], []⟩) = (none, none)
    ∧ GetStruct (fun _ _ => Value.null) (Except.ok ⟨["id"], ["INT"], []⟩)
        (fun _ => none) = some DbErr.noRows
    ∧ ∀ m2, DbErr.noRows ≠ DbErr.other m2 :=
  zero_rows_not_an_error (fun _ _ => Value.null) ⟨["id"], ["INT"], []⟩
    (fun _ => none) "bad" rfl

/-- C10: when the underlying query yields zero rows, GetValue returns the nil
Value with a nil error, and for a non-empty first record it returns one of its
field values (the first ranged one); GetCount then invokes the Int conversion on
whatever Value GetValue returned, with no nil check — on a zero-row counting
query the conversion function is applied to the nil (none) Value, the result
being whatever that conversion yields on nil rather than a direct 0. -/
theorem getCount_applies_int_to_nil_value
    (convert : List Char → String → Value) (intFn : Option GVar → Int)
    (respFor : String → Except String Cursor) (query : String) (cur : Cursor)
    (k : String) (v : GVar) (restFields : Record) (q2 : Except String Cursor)
    (hz : cur.rows = []) :
    GetValue convert (Except.ok cur) = (none, none)
    ∧ (GetOne convert q2 = (some ((k, v) :: restFields), none) →
        GetValue convert q2 = (some v, none))
    ∧ (respFor (getCountQuery query) = Except.ok cur →
        GetCount convert intFn respFor query = (intFn none, none)) := by
  have h1 : rowsToResult convert cur = [] := by
    rw [rowsToResult, hz]
  have hone : GetOne convert (Except.ok cur) = (none, none) := by
    simp only [GetOne, doGetAll]
    rw [h1]
  have hval : GetValue convert (Except.ok cur) = (none, none) := by
    simp only [GetValue]
    rw [hone]
  refine ⟨hval, ?_, ?_⟩
  · intro h
    simp only [GetValue]
    rw [h]
  · intro hresp
    simp only [GetCount]
    rw [hresp, hval]

/-- C10 witness: a stub routing every query to a zero-row cursor and an Int
conversion returning 7 on every input: GetCount yields 7 (the conversion applied
to the nil Value), not 0. -/
theorem getCount_applies_int_to_nil_value_w :
    GetValue (fun _ _ => Value.null) (Except.ok ⟨["c"], ["INT"], []⟩) = (none, none)
    ∧ (GetOne (fun _ _ => Value.null) (Except.ok ⟨["c"], ["INT"], [[some ['x']]]⟩)
          = (some (("c", GVar.val (Value.null)) :: []), none) →
        GetValue (fun _ _ => Value.null) (Except.ok ⟨["c"], ["INT"], [[some ['x']]]⟩)
          = (some (GVar.val (Value.null)), none))
    ∧ ((Except.ok (⟨["c"], ["INT"], []⟩ : Cursor) : Except String Cursor)
          = Except.ok ⟨["c"], ["INT"], []⟩ →
        GetCount (fun _ _ => Value.null) (fun _ => 7)
          (fun _ => Except.ok ⟨["c"], ["INT"], []⟩) "SELECT * FROM users" = (7, none)) :=
  getCount_applies_int_to_nil_value (fun _ _ => Value.null) (fun _ => 7)
    (fun _ => Except.ok ⟨["c"], ["INT"], []⟩) "SELECT * FROM users"
    ⟨["c"], ["INT"], []⟩ "c" (GVar.val Value.null) [] 
    (Except.ok ⟨["c"], ["INT"], [[some ['x']]]⟩) rfl

/-- C5 witness: the spec's concrete example instantiating the general statement. -/
theorem update_data_args_precede_condition_args_w :
    doUpdate "\"" "\"" "users" (UpdateData.record (("name", Value.str "john") :: []))
        " WHERE id=?" [Value.int 10000]
        = Except.ok
            ⟨"UPDATE " ++ "users" ++ " SET "
                ++ strJoin ","
                    ((("name", Value.str "john") :: []).map
                      (fun p => doQuoteWord p.1 "\"" "\"" ++ "=?"))
                ++ " WHERE id=?",
             (("name", Value.str "john") :: []).map Prod.snd ++ [Value.int 10000]⟩
    ∧ (∀ cond2 args2, doUpdate "\"" "\"" "users" (UpdateData.record []) cond2 args2
        = Except.error "data cannot be empty")
    ∧ updateStmt "\"" "\"" "users" (UpdateData.record [("name", Value.str "john")])
        "id=?" [Value.int 10000]
        = Except.ok ⟨"UPDATE users SET \"name\"=? WHERE id=?",
            [Value.str "john", Value.int 10000]⟩ :=
  update_data_args_precede_condition_args "\"" "\"" "users" ("name", Value.str "john")
    [] " WHERE id=?" [Value.int 10000]

/-- C7 witness: a two-row cursor sharing the scan buffer, instantiated
concretely. -/
theorem rows_copied_before_store_w :
    rowsToResult (fun b _ => Value.str (String.mk b)) ⟨["a"], ["TEXT"], [[some ['x']], [some ['y']]]⟩
        = ([[some ['x']], [some ['y']]] : List RawRow).map
            (buildRecord (fun b _ => Value.str (String.mk b)) ["a"] ["TEXT"])
    ∧ (∀ (names types : List String) (r1 r2 : RawRow),
        rowsToResult (fun b _ => Value.str (String.mk b)) ⟨names, types, [r1, r2]⟩
          = [buildRecord (fun b _ => Value.str (String.mk b)) names types r1,
             buildRecord (fun b _ => Value.str (String.mk b)) names types r2])
    ∧ (∀ (n t : String) (ns ts : List String) (b : List Char) (cs : RawRow),
        buildRecord (fun b _ => Value.str (String.mk b)) (n :: ns) (t :: ts) (some b :: cs)
            = (n, GVar.val ((fun (b : List Char) (_ : String) => Value.str (String.mk b))
                (copyBytes b) t)) ::
              buildRecord (fun b _ => Value.str (String.mk b)) ns ts cs
        ∧ copyBytes b = b
        ∧ buildRecord (fun b _ => Value.str (String.mk b)) (n :: ns) (t :: ts) (none :: cs)
            = (n, GVar.nil) :: buildRecord (fun b _ => Value.str (String.mk b)) ns ts cs
        ∧ ∀ v, GVar.nil ≠ GVar.val v) :=
  rows_copied_before_store (fun b _ => Value.str (String.mk b))
    ⟨["a"], ["TEXT"], [[some ['x']], [some ['y']]]⟩

end Gdb
